import Mathlib

/-
  Verification development for the ndfr media helper
  (src/ndfr-media-helper.c).

  The program is embedded shallowly.  The session bus is modelled by an
  abstract environment `Bus`: the result of the `ListNames` call, and for
  every bus name the player registered under it (`Player`), i.e. whether a
  proxy for it can be created, its cached properties (as tagged variant
  values, mirroring GVariant), and whether its `Seek` / `PlayPause` method
  calls succeed.  Each C function that the claims mention is translated
  into a Lean function over this environment; `double` values are
  modelled by the exact rationals they denote (this is noted again at the
  definitions where it matters).
-/

/-- Tagged variant values, mirroring the GVariant encodings the helper
inspects: signed/unsigned 64-bit integers, strings, string arrays and
booleans.  Integer payloads are carried as unbounded `Int`/`Nat`; the
helper itself never performs arithmetic that overflows 64 bits on the
paths modelled here. -/
inductive GVariant where
  | vInt64 (v : Int)
  | vUInt64 (v : Nat)
  | vString (s : String)
  | vStrv (ss : List String)
  | vBool (b : Bool)
deriving DecidableEq, Repr

/-- `g_variant_get_string`: returns the payload of a string variant.  On a
variant of any other type the C call fails its precondition check and
yields no string; this is modelled as `""`. -/
def getString : GVariant → String
  | .vString s => s
  | _ => ""

/-- `g_variant_get_int64`: payload of an INT64 variant; on any other type
the C call fails its precondition check and returns 0. -/
def getInt64 : GVariant → Int
  | .vInt64 v => v
  | _ => 0

/-- `g_variant_get_boolean`: payload of a BOOLEAN variant; on any other
type the C call fails its precondition check and returns FALSE. -/
def getBoolean : GVariant → Bool
  | .vBool b => b
  | _ => false

/-- The C cast `(gint64)` applied to a `guint64` value `x < 2^64`:
values at or above `2^63` wrap to negatives. -/
def castU64toI64 (x : Nat) : Int :=
  if x < 2 ^ 63 then (x : Int) else (x : Int) - 2 ^ 64

/-- Playback status enumeration of the spec (§3). -/
inductive Status where
  | Playing
  | Paused
  | Stopped
  | Unknown
deriving DecidableEq, Repr

/-- Mapping from the protocol's status string to the spec's enumeration:
any unrecognized or absent value (the helper represents the absent case
by the empty string) maps to `Unknown`. -/
def parseStatus (s : String) : Status :=
  if s = "Playing" then .Playing
  else if s = "Paused" then .Paused
  else if s = "Stopped" then .Stopped
  else .Unknown

/-- One player registration as seen through the bus: whether a D-Bus proxy
for it can be created, its cached properties (`none` = property absent),
and whether its `Seek` / `PlayPause` method calls return without error.
`metadata` is the `a{sv}` dictionary as an ordered association list, the
order being the iteration order of `g_variant_iter_next`. -/
structure Player where
  proxyOk : Bool
  playbackStatus : Option GVariant
  position : Option GVariant
  metadata : Option (List (String × GVariant))
  canSeek : Option GVariant
  seekOk : Bool
  playPauseOk : Bool
deriving DecidableEq, Repr

/-- A player registration that has nothing: no proxy, no properties. -/
def defaultPlayer : Player :=
  { proxyOk := false, playbackStatus := none, position := none,
    metadata := none, canSeek := none, seekOk := false, playPauseOk := false }

/-- The bus environment: the outcome of the initial `ListNames` call
(`none` = the call fails) and the player registered under each name. -/
structure Bus where
  listNames : Option (List String)
  players : String → Player

/-- The media-player namespace (the string literal
`"org.mpris.MediaPlayer2."` of the source). -/
def mprisNS : String := "org.mpris.MediaPlayer2."

/-- Character-by-character prefix test on character lists. -/
def isPrefixL : List Char → List Char → Bool
  | [], _ => true
  | _ :: _, [] => false
  | c :: cs, d :: ds => c = d && isPrefixL cs ds

/-- `g_str_has_prefix`: the first string is a prefix of the second. -/
def strHasPrefix (pre s : String) : Bool := isPrefixL pre.data s.data

/-- Loop body of `find_players`: one bus name is examined and appended to
the playing or paused bucket (the accumulator pair), or dropped.  Mirrors
lines 36-64 of the source: prefix test, proxy creation, cached
`PlaybackStatus` read, then the two `strcmp` comparisons. -/
def dirStep (bus : Bus) (acc : List String × List String) (n : String) :
    List String × List String :=
  if strHasPrefix mprisNS n then
    let p := bus.players n
    if p.proxyOk then
      match p.playbackStatus with
      | some v =>
        if getString v = "Playing" then (acc.1 ++ [n], acc.2)
        else if getString v = "Paused" then (acc.1, acc.2 ++ [n])
        else acc
      | none => acc
    else acc
  else acc

/-- `find_players`: lists bus names (an error yields the empty list),
buckets them with `dirStep` in discovery order, and returns the playing
bucket concatenated with the paused bucket (`g_list_concat`). -/
def find_players (bus : Bus) : List String :=
  match bus.listNames with
  | none => []
  | some names =>
    let pp := names.foldl (dirStep bus) ([], [])
    pp.1 ++ pp.2

/-- A name qualifies for the playing bucket: namespace prefix, proxy
creation succeeds, `PlaybackStatus` readable and equal to "Playing". -/
def isPlayingEntry (bus : Bus) (n : String) : Bool :=
  strHasPrefix mprisNS n && (bus.players n).proxyOk &&
    (match (bus.players n).playbackStatus with
     | some v => getString v == "Playing"
     | none => false)

/-- A name qualifies for the paused bucket: namespace prefix, proxy
creation succeeds, `PlaybackStatus` readable and equal to "Paused". -/
def isPausedEntry (bus : Bus) (n : String) : Bool :=
  strHasPrefix mprisNS n && (bus.players n).proxyOk &&
    (match (bus.players n).playbackStatus with
     | some v => getString v == "Paused"
     | none => false)

/-- One snapshot of one player, as the helper prints it: the `status`
field carries the raw protocol string (the spec's enumeration is obtained
from it through `parseStatus`). -/
structure StateRecord where
  player_id : String
  status : String
  position : Int
  length : Int
  title : String
  artist : String
  icon : String
deriving DecidableEq, Repr

/-- One step of the metadata-dictionary iteration (lines 124-144 of the
source).  The accumulator is (length, title, artist so far); a
`mpris:length` entry of a non-integer type, or a `xesam:artist` entry
that is not a non-empty string array, leaves the accumulator unchanged. -/
def metaStep (acc : Int × String × Option String) (kv : String × GVariant) :
    Int × String × Option String :=
  if kv.1 = "mpris:length" then
    match kv.2 with
    | .vInt64 x => (x, acc.2.1, acc.2.2)
    | .vUInt64 x => (castU64toI64 x, acc.2.1, acc.2.2)
    | _ => acc
  else if kv.1 = "xesam:title" then (acc.1, getString kv.2, acc.2.2)
  else if kv.1 = "xesam:artist" then
    match kv.2 with
    | .vStrv (a :: _) => (acc.1, acc.2.1, some a)
    | _ => acc
  else acc

/-- Per-player aggregation: the loop body of `get_players_json` (lines
97-153 of the source) once the proxy exists.  Each property is read
independently; a missing or ill-typed property leaves the corresponding
default (`""`, `0`, no artist).  The icon is the identity's suffix after
the namespace prefix, derived purely from the name. -/
def aggregate (p : Player) (name : String) : StateRecord :=
  let status := match p.playbackStatus with
    | some v => getString v
    | none => ""
  let position := match p.position with
    | some v =>
      match v with
      | .vInt64 x => x
      | .vUInt64 x => castU64toI64 x
      | _ => 0
    | none => 0
  let meta := match p.metadata with
    | some entries => entries.foldl metaStep (0, "", none)
    | none => (0, "", none)
  let icon := if strHasPrefix mprisNS name then name.drop mprisNS.length else ""
  { player_id := name, status := status, position := position,
    length := meta.1, title := meta.2.1, artist := (meta.2.2).getD "",
    icon := icon }

/-- The `g_string_append_printf` format of line 152 of the source, applied
to one aggregated record. -/
def recordJson (r : StateRecord) : String :=
  "\x7b\"player_id\":\"" ++ r.player_id ++ "\",\"status\":\"" ++ r.status ++
    "\",\"position\":" ++ toString r.position ++ ",\"length\":" ++
    toString r.length ++ ",\"title\":\"" ++ r.title ++ "\",\"artist\":\"" ++
    r.artist ++ "\",\"icon\":\"" ++ r.icon ++ "\"\x7d"

/-- Body of the `get_players_json` loop over the ranked player list: a
player whose proxy cannot be created is skipped entirely (the `continue`
of line 94), and a comma follows each printed record whose list node has
a successor. -/
def playersJsonBody (bus : Bus) : List String → String
  | [] => ""
  | n :: rest =>
    (if (bus.players n).proxyOk then
        recordJson (aggregate (bus.players n) n) ++
          (if rest.isEmpty then "" else ",")
      else "") ++ playersJsonBody bus rest

/-- `get_players_json`: brackets around the serialized ranked players; an
empty ranking yields exactly `"[]"`. -/
def get_players_json (bus : Bus) : String :=
  "[" ++ playersJsonBody bus (find_players bus) ++ "]"

/-- `handle_get`: prints the snapshot line and returns exit code 0.  The
pair is (exit code, printed line). -/
def handle_get (bus : Bus) : Nat × String :=
  (0, get_players_json bus)

/-- The whitespace characters skipped by `strtoll`/`strtod` (C `isspace`
in the default locale). -/
def isSpaceC (c : Char) : Bool :=
  c = ' ' || c = '\t' || c = '\n' || c = '\x0b' || c = '\x0c' || c = '\r'

/-- Drop one optional leading sign character. -/
def dropSign (cs : List Char) : List Char :=
  match cs with
  | '-' :: r => r
  | '+' :: r => r
  | _ => cs

/-- Sign factor of an optional leading sign character. -/
def signOf (cs : List Char) : Int :=
  match cs with
  | '-' :: _ => -1
  | _ => 1

/-- Value of a run of decimal digits (most significant first). -/
def natOfDigits (cs : List Char) : Nat :=
  cs.foldl (fun a c => 10 * a + (c.toNat - 48)) 0

/-- The saturation `strtoll` performs on out-of-range literals: values
beyond the int64 range are clamped to LLONG_MIN / LLONG_MAX. -/
def clampI64 (x : Int) : Int :=
  if x < -(2 ^ 63) then -(2 ^ 63)
  else if 2 ^ 63 - 1 < x then 2 ^ 63 - 1
  else x

/-- `atoll` (line 204 of the source), i.e. `strtoll(s, NULL, 10)`: skip
whitespace, read an optional sign and then a run of decimal digits,
saturating at the int64 bounds; no digits (so also an argument that does
not parse as a number at all) yields 0. -/
def atoll (s : String) : Int :=
  let cs := s.data.dropWhile isSpaceC
  clampI64 (signOf cs * natOfDigits ((dropSign cs).takeWhile Char.isDigit))

/-- Exponent part of a `strtod` literal: `e`/`E`, optional sign, digits;
with no digit after the `e` the exponent is not consumed and counts as
0. -/
def expOf (cs : List Char) : Int :=
  match cs with
  | c :: r =>
    if c = 'e' ∨ c = 'E' then
      let ds := (dropSign r).takeWhile Char.isDigit
      if ds = [] then 0 else signOf r * natOfDigits ds
    else 0
  | [] => 0

/-- Digits of the fraction part of a `strtod` literal: the run of digits
after a leading decimal point, if any. -/
def fracDigits (cs : List Char) : List Char :=
  match cs with
  | c :: r => if c = '.' then r.takeWhile Char.isDigit else []
  | [] => []

/-- What remains of a `strtod` literal after the fraction part. -/
def fracRest (cs : List Char) : List Char :=
  match cs with
  | c :: r => if c = '.' then r.dropWhile Char.isDigit else c :: r
  | [] => []

/-- The value of a C `double`: a finite value carried as the exact
rational it denotes (every finite binary64 value is a rational; the sign
of a floating-point zero is dropped, which is invisible to the
comparisons and conversions the helper performs), or an infinity, or
NaN. -/
inductive DVal where
  | fin (q : ℚ)
  | pinf
  | ninf
  | nan
deriving DecidableEq, Repr

/-- Fuel-driven binary logarithm, ⌊log2 n⌋ for n ≥ 1 (0 for n = 0),
structurally recursive so that it evaluates inside the kernel. -/
def log2Aux : Nat → Nat → Nat
  | 0, _ => 0
  | fuel + 1, n => if n ≤ 1 then 0 else log2Aux fuel (n / 2) + 1

/-- ⌊log2 n⌋ for n ≥ 1 (`log2Aux` with fuel n ≥ ⌊log2 n⌋). -/
def log2N (n : Nat) : Nat := log2Aux n n

/-- Whether `2 ^ k ≤ n / d` for positive naturals `n`, `d`, by
cross-multiplication. -/
def pow2le (k : Int) (n d : Nat) : Bool :=
  if 0 ≤ k then d * 2 ^ k.toNat ≤ n else d ≤ n * 2 ^ (-k).toNat

/-- Floor of the base-2 logarithm of the positive rational `n / d`:
`log2N` of numerator and denominator brackets it within one, and the
`pow2le` test picks the right candidate. -/
def flog2 (n d : Nat) : Int :=
  let c : Int := (log2N n : Int) - (log2N d : Int)
  if pow2le c n d then c else c - 1

/-- Round the positive rational `n / d` to the nearest IEEE binary64
value with ties to even: the result is `m · 2 ^ E` where
`E = max (⌊log2 (n/d)⌋ - 52) (-1074)` (normal numbers carry 53
significant bits, subnormals bottom out at the quantum 2^-1074) and `m`
is the nearest-even integer to `n / (d · 2 ^ E)`.  Returns the double's
exact value as a rational, or `none` when the rounded value `m · 2 ^ E`
exceeds the largest finite double `(2^53 - 1) · 2^971` (overflow to
infinity): since `m ≥ 2^52` whenever `E > -1074`, that is exactly
`E > 971`, or `E = 971` with the rounding carried `m` up to `2^53`. -/
def roundPosB64 (n d : Nat) : Option ℚ :=
  let E : Int := max (flog2 n d - 52) (-1074)
  let num := n * 2 ^ (max (-E) 0).toNat
  let den := d * 2 ^ (max E 0).toNat
  let m0 := num / den
  let r := num % den
  let m := if 2 * r < den then m0
           else if den < 2 * r then m0 + 1
           else if m0 % 2 = 0 then m0 else m0 + 1
  if 971 < E ∨ (E = 971 ∧ 2 ^ 53 ≤ m) then none
  else some (mkRat ((m * 2 ^ (max E 0).toNat : Nat) : Int)
    (2 ^ (max (-E) 0).toNat))

/-- Round the rational with integer numerator `n` and natural
denominator `d` to binary64.  A zero denominator follows IEEE division:
±∞ for a nonzero numerator, NaN for 0/0. -/
def roundB64Frac (n : Int) (d : Nat) : DVal :=
  if d = 0 then
    if n = 0 then .nan else if 0 < n then .pinf else .ninf
  else if n = 0 then .fin 0
  else if 0 < n then
    match roundPosB64 n.toNat d with
    | some q => .fin q
    | none => .pinf
  else
    match roundPosB64 (-n).toNat d with
    | some q => .fin (-q)
    | none => .ninf

/-- IEEE binary64 division, for the `percentage / 100.0` of line 240:
the exact quotient of the operands correctly rounded; infinities and NaN
follow the IEEE special cases. -/
def dDiv (a b : DVal) : DVal :=
  match a, b with
  | .nan, _ => .nan
  | _, .nan => .nan
  | .fin qa, .fin qb =>
    roundB64Frac ((if qb.num < 0 then -qa.num else qa.num) * (qb.den : Int))
      (qa.den * qb.num.natAbs)
  | .fin _, .pinf => .fin 0
  | .fin _, .ninf => .fin 0
  | .pinf, .fin qb => if qb < 0 then .ninf else .pinf
  | .ninf, .fin qb => if qb < 0 then .pinf else .ninf
  | .pinf, .pinf => .nan
  | .pinf, .ninf => .nan
  | .ninf, .pinf => .nan
  | .ninf, .ninf => .nan

/-- IEEE binary64 multiplication, for the `(...) * (double)track_length`
of line 240: the exact product correctly rounded; `∞ · 0` is NaN, other
infinite products keep the sign. -/
def dMul (a b : DVal) : DVal :=
  match a, b with
  | .nan, _ => .nan
  | _, .nan => .nan
  | .fin qa, .fin qb => roundB64Frac (qa.num * qb.num) (qa.den * qb.den)
  | .fin qa, .pinf => if qa = 0 then .nan else if qa < 0 then .ninf else .pinf
  | .fin qa, .ninf => if qa = 0 then .nan else if qa < 0 then .pinf else .ninf
  | .pinf, .fin qb => if qb = 0 then .nan else if qb < 0 then .ninf else .pinf
  | .ninf, .fin qb => if qb = 0 then .nan else if qb < 0 then .pinf else .ninf
  | .pinf, .pinf => .pinf
  | .pinf, .ninf => .ninf
  | .ninf, .pinf => .ninf
  | .ninf, .ninf => .pinf

/-- The C cast `(double)` applied to a `gint64` (line 240): correctly
rounded; never overflows, 2^63 being far below the largest double. -/
def i64ToD (x : Int) : DVal := roundB64Frac x 1

/-- Truncation toward zero of a rational. -/
def truncQ (q : ℚ) : Int :=
  if 0 ≤ q.num then ((q.num.toNat / q.den : Nat) : Int)
  else -(((-q.num).toNat / q.den : Nat) : Int)

/-- The C cast `(gint64)` applied to a double (line 240): truncation
toward zero for finite values.  For NaN, the infinities and finite
values outside the int64 range the C conversion is undefined; x86-64's
`cvttsd2si` yields INT64_MIN for the non-finite cases, taken as the
model (no claim's hypothesis set reaches them), and an out-of-range
finite value is modelled by its plain truncation. -/
def castDtoI64 (d : DVal) : Int :=
  match d with
  | .fin q => truncQ q
  | _ => -(2 ^ 63)

/-- Case-insensitive test for a leading `inf` (`strtod` accepts `inf`
and `infinity` in any case). -/
def isInfStart (cs : List Char) : Bool :=
  match cs with
  | a :: b :: c :: _ =>
    (a = 'i' ∨ a = 'I') && (b = 'n' ∨ b = 'N') && (c = 'f' ∨ c = 'F')
  | _ => false

/-- Case-insensitive test for a leading `nan`. -/
def isNanStart (cs : List Char) : Bool :=
  match cs with
  | a :: b :: c :: _ =>
    (a = 'n' ∨ a = 'N') && (b = 'a' ∨ b = 'A') && (c = 'n' ∨ c = 'N')
  | _ => false

/-- `atof` (line 226 of the source), i.e. `strtod(s, NULL)`: skip
whitespace and an optional sign; an `inf`/`nan` literal yields the
corresponding special value; otherwise parse integer digits, optional
fraction and optional exponent into the exact decimal rational and round
it to the nearest binary64 (overflow to ±∞, gradual underflow through
the subnormals down to ±0) — glibc's `strtod` is correctly rounded,
which is what `roundB64Frac` implements; no digits at all yields 0.
Hexadecimal literals (`0x...`) are not modelled: they begin with the
digit 0, so they never lie in the `numStart s = false` region the
claims quantify over. -/
def atofD (s : String) : DVal :=
  let cs := s.data.dropWhile isSpaceC
  let sg := signOf cs
  let cs1 := dropSign cs
  if isInfStart cs1 then (if sg < 0 then .ninf else .pinf)
  else if isNanStart cs1 then .nan
  else
    let ip := cs1.takeWhile Char.isDigit
    let cs2 := cs1.dropWhile Char.isDigit
    let fp := fracDigits cs2
    let cs3 := fracRest cs2
    if ip = [] ∧ fp = [] then .fin 0
    else
      let mant : Int := sg * natOfDigits (ip ++ fp)
      let e10 : Int := expOf cs3 - fp.length
      if 0 ≤ e10 then roundB64Frac (mant * 10 ^ e10.toNat) 1
      else roundB64Frac mant (10 ^ (-e10).toNat)

/-- The range check of line 227, `percentage < 0.0 || percentage > 100.0`,
on the parsed double: exact comparison for finite values (a finite
double is its rational value, and double comparison is exact), true for
either infinity, false for NaN (IEEE comparisons involving NaN are
false, so a NaN percentage passes the check). -/
def rangeFailD (d : DVal) : Bool :=
  match d with
  | .fin q => decide (q < 0) || decide (100 < q)
  | .pinf => true
  | .ninf => true
  | .nan => false

/-- Whether the argument string starts (after whitespace and an optional
sign) like a number accepted by `strtod`/`strtoll`: a digit, a decimal
point followed by a digit, or an `inf`/`nan` literal.  When this is
false, C `atoll` and `atof` (and the models `atoll` and `atofD`) perform
no conversion and yield 0. -/
def numStart (s : String) : Bool :=
  let cs1 := dropSign (s.data.dropWhile isSpaceC)
  isInfStart cs1 || isNanStart cs1 ||
    (match cs1 with
     | c :: r => c.isDigit || (c = '.' && !(r.takeWhile Char.isDigit).isEmpty)
     | [] => false)

/-- The seek-capability condition of lines 194 and 220 of the source:
`can_seek_variant && g_variant_get_boolean(can_seek_variant)` — false
when the cached `CanSeek` property is absent, ill-typed or FALSE. -/
def canSeekOf (p : Player) : Bool :=
  match p.canSeek with
  | some v => getBoolean v
  | none => false

/-- Bus method calls issued by the command handlers (`CallMethod` in the
spec's bus-client interface). -/
inductive BusCall where
  | playPause (target : String)
  | seek (target : String) (offset : Int)
deriving DecidableEq, Repr

/-- `handle_play_pause`: without a target it fails; with a target it
issues the `PlayPause` call with a NULL error argument — the call's
outcome (`playPauseOk`) is never consulted — and returns 0.  The pair is
(exit code, bus calls issued). -/
def handle_play_pause (bus : Bus) (player_id : Option String) :
    Nat × List BusCall :=
  match player_id with
  | none => (1, [])
  | some pid => (0, [BusCall.playPause pid])

/-- The `play-pause` branch of `main` (lines 304-322 of the source): an
explicit player argument is used as is; otherwise the top-ranked player
of `find_players`; with neither, the result stays 1 and no call is
issued. -/
def mainPlayPause (bus : Bus) (arg : Option String) : Nat × List BusCall :=
  match arg with
  | some pid => handle_play_pause bus (some pid)
  | none =>
    match find_players bus with
    | [] => (1, [])
    | pid :: _ => handle_play_pause bus (some pid)

/-- `handle_set_position` (lines 185-209 of the source): fail without a
target, on proxy-creation failure, when `CanSeek` is absent/false, or
when `Position` is absent; otherwise read the current position with
`g_variant_get_int64`, compute `offset = atoll(pos_str) − current`, and
issue the `Seek` call, whose error determines the exit code.  The int64
subtraction is modelled on unbounded integers (its overflow is undefined
behaviour in C and not exercised by the claims); `atoll` itself
saturates at the int64 bounds as C `strtoll` does. -/
def handle_set_position (bus : Bus) (player_id : Option String)
    (pos_str : String) : Nat × List BusCall :=
  match player_id with
  | none => (1, [])
  | some pid =>
    let p := bus.players pid
    if p.proxyOk then
      if canSeekOf p then
        match p.position with
        | none => (1, [])
        | some pv =>
          let offset := atoll pos_str - getInt64 pv
          (if p.seekOk then 0 else 1, [BusCall.seek pid offset])
      else (1, [])
    else (1, [])

/-- `g_variant_lookup_value(metadata, "mpris:length", G_VARIANT_TYPE_INT64)`
of line 230: the first entry with the key, provided it is INT64-typed. -/
def lookupLenI64 (md : List (String × GVariant)) : Option Int :=
  match md.find? (fun kv => kv.1 == "mpris:length") with
  | some kv =>
    match kv.2 with
    | .vInt64 x => some x
    | _ => none
  | none => none

/-- `handle_set_position_percent` (lines 211-246 of the source): fail
without a target, on proxy-creation failure, when `CanSeek` is
absent/false, when the parsed (binary64) percentage fails the range
check, when `Metadata` is absent, when `mpris:length` is
absent/ill-typed or ≤ 0, or when `Position` is absent; otherwise the
desired position is the binary64 evaluation of
`(percentage / 100.0) * (double)track_length` cast to int64 (all three
steps correctly rounded / truncated as IEEE prescribes), and the `Seek`
call is issued with `offset = desired − current`. -/
def handle_set_position_percent (bus : Bus) (player_id : Option String)
    (percent_str : String) : Nat × List BusCall :=
  match player_id with
  | none => (1, [])
  | some pid =>
    let p := bus.players pid
    if p.proxyOk then
      if canSeekOf p then
        let percentage := atofD percent_str
        if rangeFailD percentage then (1, [])
        else
          match p.metadata with
          | none => (1, [])
          | some md =>
            match lookupLenI64 md with
            | none => (1, [])
            | some track_length =>
              if track_length ≤ 0 then (1, [])
              else
                match p.position with
                | none => (1, [])
                | some pv =>
                  let desired := castDtoI64 (dMul (dDiv percentage
                    (DVal.fin 100)) (i64ToD track_length))
                  let offset := desired - getInt64 pv
                  (if p.seekOk then 0 else 1, [BusCall.seek pid offset])
      else (1, [])
    else (1, [])

/-- One tick of `high_frequency_poll` (lines 250-268 of the source),
after `current_json` has been computed by `get_players_json`: given the
held previous payload (`none` on the very first tick, when the static
`previous_json` is still NULL), the result is the new held payload and
whether this tick printed.  Printing happens when nothing is held yet or
when the payloads differ (`g_strcmp0 != 0`); on a print the new payload
replaces the held one. -/
def high_frequency_poll (previous_json : Option String)
    (current_json : String) : Option String × Bool :=
  match previous_json with
  | none => (some current_json, true)
  | some p =>
    if p ≠ current_json then (some current_json, true) else (some p, false)

/-- The polling loop run over a finite trace of per-tick serialized
snapshots (the bus contents evolve between ticks, so each tick's
`get_players_json` result is taken as an input), threading the held
payload and collecting the printed emissions in order. -/
def notifyAux : Option String → List String → List String
  | _, [] => []
  | prev, cur :: rest =>
    if (high_frequency_poll prev cur).2 then
      cur :: notifyAux (high_frequency_poll prev cur).1 rest
    else notifyAux (high_frequency_poll prev cur).1 rest

/-- The emissions of the change notifier over a trace of per-tick
payloads, starting in the Idle state (nothing held). -/
def notifyRun (payloads : List String) : List String :=
  notifyAux none payloads

/-- Spec-side characterization of the Armed state (§4.4): holding
`held`, a tick whose payload equals the held value emits nothing; any
other payload is emitted and replaces the held value. -/
def armedRun (held : String) : List String → List String
  | [] => []
  | cur :: rest =>
    if cur = held then armedRun held rest else cur :: armedRun cur rest

/-- Bus name of the paused example player P1. -/
def p1name : String := "org.mpris.MediaPlayer2.p1"

/-- Bus name of the playing example player P2. -/
def p2name : String := "org.mpris.MediaPlayer2.p2"

/-- Bus name of the playing example player P3. -/
def p3name : String := "org.mpris.MediaPlayer2.p3"

/-- A reachable player with the given playback status string. -/
def statusPlayer (st : String) : Player :=
  { proxyOk := true, playbackStatus := some (.vString st), position := none,
    metadata := none, canSeek := none, seekOk := false, playPauseOk := true }

/-- Example bus of the spec's ranking test: P1 (paused), P2 (playing),
P3 (playing) discovered in that order. -/
def exBus3 : Bus :=
  { listNames := some [p1name, p2name, p3name],
    players := fun n =>
      if n = p1name then statusPlayer "Paused"
      else if n = p2name then statusPlayer "Playing"
      else if n = p3name then statusPlayer "Playing"
      else defaultPlayer }

/-- Bus name of the seek example player. -/
def vlcName : String := "org.mpris.MediaPlayer2.vlc"

/-- A reachable, seek-capable player: playing, current position
5,000,000 µs, track length 200,000,000 µs, `Seek` succeeding. -/
def seekPlayer : Player :=
  { proxyOk := true, playbackStatus := some (.vString "Playing"),
    position := some (.vInt64 5000000),
    metadata := some [("mpris:length", .vInt64 200000000)],
    canSeek := some (.vBool true), seekOk := true, playPauseOk := true }

/-- Bus exposing only the seek example player. -/
def seekBus : Bus :=
  { listNames := some [vlcName],
    players := fun n => if n = vlcName then seekPlayer else defaultPlayer }

/-- A reachable player whose `CanSeek` property is absent. -/
def noSeekPlayer : Player :=
  { proxyOk := true, playbackStatus := some (.vString "Playing"),
    position := some (.vInt64 5000000),
    metadata := some [("mpris:length", .vInt64 200000000)],
    canSeek := none, seekOk := true, playPauseOk := true }

/-- Bus exposing only the seek-incapable player. -/
def noSeekBus : Bus :=
  { listNames := some [vlcName],
    players := fun n => if n = vlcName then noSeekPlayer else defaultPlayer }

/-- A reachable player whose `PlayPause` method call fails. -/
def ppFailPlayer : Player :=
  { proxyOk := true, playbackStatus := some (.vString "Playing"),
    position := some (.vInt64 5000000), metadata := none,
    canSeek := some (.vBool true), seekOk := true, playPauseOk := false }

/-- Bus exposing only the player whose `PlayPause` call fails. -/
def ppFailBus : Bus :=
  { listNames := some [vlcName],
    players := fun n => if n = vlcName then ppFailPlayer else defaultPlayer }

/-- Bus on which the initial `ListNames` call fails. -/
def emptyBus : Bus :=
  { listNames := none, players := fun _ => defaultPlayer }

lemma dirStep_eq (bus : Bus) (acc : List String × List String) (n : String) :
    dirStep bus acc n =
      (acc.1 ++ (if isPlayingEntry bus n then [n] else []),
       acc.2 ++ (if isPausedEntry bus n then [n] else [])) := by
  unfold dirStep isPlayingEntry isPausedEntry
  by_cases hpre : strHasPrefix mprisNS n
  · cases hst : (bus.players n).playbackStatus with
    | none =>
      by_cases hpx : (bus.players n).proxyOk <;> simp [hpre, hpx, hst]
    | some v =>
      by_cases hpx : (bus.players n).proxyOk
      · by_cases hpl : getString v = "Playing"
        · simp [hpre, hpx, hst, hpl]
        · by_cases hpa : getString v = "Paused" <;>
            simp [hpre, hpx, hst, hpl, hpa]
      · simp [hpre, hpx, hst]
  · simp [hpre]

lemma dirFold_eq (bus : Bus) (names : List String) :
    ∀ a b : List String,
      names.foldl (dirStep bus) (a, b) =
        (a ++ names.filter (isPlayingEntry bus),
         b ++ names.filter (isPausedEntry bus)) := by
  induction names with
  | nil => intro a b; simp
  | cons n rest ih =>
    intro a b
    rw [List.foldl_cons, dirStep_eq, ih]
    by_cases h1 : isPlayingEntry bus n <;> by_cases h2 : isPausedEntry bus n <;>
      simp [List.filter_cons, h1, h2]

lemma find_players_eq (bus : Bus) (names : List String)
    (h : bus.listNames = some names) :
    find_players bus =
      names.filter (isPlayingEntry bus) ++ names.filter (isPausedEntry bus) := by
  unfold find_players
  rw [h]
  simp [dirFold_eq]

lemma playingEntry_props {bus : Bus} {n : String}
    (h : isPlayingEntry bus n = true) :
    strHasPrefix mprisNS n = true ∧ (bus.players n).proxyOk = true ∧
      ∃ v, (bus.players n).playbackStatus = some v ∧ getString v = "Playing" := by
  unfold isPlayingEntry at h
  cases hst : (bus.players n).playbackStatus with
  | none => rw [hst] at h; simp at h
  | some v =>
    rw [hst] at h
    simp only [Bool.and_eq_true, beq_iff_eq] at h
    exact ⟨h.1.1, h.1.2, v, rfl, h.2⟩

lemma pausedEntry_props {bus : Bus} {n : String}
    (h : isPausedEntry bus n = true) :
    strHasPrefix mprisNS n = true ∧ (bus.players n).proxyOk = true ∧
      ∃ v, (bus.players n).playbackStatus = some v ∧ getString v = "Paused" := by
  unfold isPausedEntry at h
  cases hst : (bus.players n).playbackStatus with
  | none => rw [hst] at h; simp at h
  | some v =>
    rw [hst] at h
    simp only [Bool.and_eq_true, beq_iff_eq] at h
    exact ⟨h.1.1, h.1.2, v, rfl, h.2⟩

lemma notifyAux_armed (l : List String) :
    ∀ held, notifyAux (some held) l = armedRun held l := by
  induction l with
  | nil => intro held; rfl
  | cons cur rest ih =>
    intro held
    unfold notifyAux armedRun high_frequency_poll
    by_cases h : held = cur
    · subst h; simp [ih]
    · simp [h, Ne.symm h, ih]

lemma parse_zero_of_numStart_false {s : String} (h : numStart s = false) :
    atoll s = 0 ∧ atofD s = DVal.fin 0 := by
  unfold numStart at h
  simp only [Bool.or_eq_false_iff] at h
  obtain ⟨⟨hinf, hnan⟩, hrest⟩ := h
  simp only [atoll, atofD, hinf, hnan, Bool.false_eq_true, if_false]
  rcases hcs : dropSign (s.data.dropWhile isSpaceC) with _ | ⟨c, r⟩
  · simp [natOfDigits, fracDigits, clampI64]
  · rw [hcs] at hrest
    simp only [Bool.or_eq_false_iff, Bool.and_eq_false_iff] at hrest
    obtain ⟨hd, hdot⟩ := hrest
    have htw : List.takeWhile Char.isDigit (c :: r) = [] := by
      simp [List.takeWhile_cons, hd]
    have hdw : List.dropWhile Char.isDigit (c :: r) = c :: r := by
      simp [List.dropWhile_cons, hd]
    have hfd : fracDigits (c :: r) = [] := by
      unfold fracDigits
      by_cases hc : c = '.'
      · rcases hdot with hdot | hdot
        · simp [hc] at hdot
        · have hx : (r.takeWhile Char.isDigit).isEmpty = true := by
            revert hdot; cases (r.takeWhile Char.isDigit).isEmpty <;> simp
          simp [hc, List.isEmpty_iff.mp hx]
      · simp [hc]
    rw [htw, hdw, hfd]
    simp [natOfDigits, clampI64]

lemma notifyRun_cons (p : String) (rest : List String) :
    notifyRun (p :: rest) = p :: armedRun p rest := by
  unfold notifyRun notifyAux high_frequency_poll
  simp [notifyAux_armed]

/-- Claim C1: for every list of bus names returned by name-listing, the
Player Directory's output is exactly the playing names followed by the
paused names, each in discovery order; only names with the media-player
namespace prefix and a readable status equal to Playing or Paused appear
(so no Stopped, unrecognized or status-less name); and for P1 (paused),
P2 (playing), P3 (playing) discovered in that order, the ranking is
[P2, P3, P1]. -/
theorem C1_directory_ranking (bus : Bus) (names : List String)
    (h : bus.listNames = some names) :
    find_players bus =
      names.filter (isPlayingEntry bus) ++ names.filter (isPausedEntry bus) ∧
    (∀ n ∈ find_players bus,
      strHasPrefix mprisNS n = true ∧
        ∃ v, (bus.players n).playbackStatus = some v ∧
          (parseStatus (getString v) = Status.Playing ∨
           parseStatus (getString v) = Status.Paused)) ∧
    find_players exBus3 = [p2name, p3name, p1name] := by
  refine ⟨find_players_eq bus names h, ?_, by decide⟩
  intro n hn
  rw [find_players_eq bus names h] at hn
  rcases List.mem_append.mp hn with hn | hn
  · obtain ⟨h1, h2, v, hv, hs⟩ := playingEntry_props (List.mem_filter.mp hn).2
    exact ⟨h1, v, hv, Or.inl (by rw [hs]; decide)⟩
  · obtain ⟨h1, h2, v, hv, hs⟩ := pausedEntry_props (List.mem_filter.mp hn).2
    exact ⟨h1, v, hv, Or.inr (by rw [hs]; decide)⟩

/-- Witness for C1 at the concrete three-player bus. -/
theorem C1_directory_ranking_witness :
    find_players exBus3 = [p2name, p3name, p1name] :=
  (C1_directory_ranking exBus3 [p1name, p2name, p3name] rfl).2.2

/-- Claim C2: the change notifier emits on the first tick
unconditionally and from then on behaves as `armedRun`: a later tick
emits iff its payload differs from the previously emitted one, which it
then replaces; for three ticks with payloads A, A, B (A ≠ B) exactly two
emissions occur, A then B. -/
theorem C2_change_notifier (A B : String) (hAB : A ≠ B) :
    (∀ (p : String) (rest : List String),
        notifyRun (p :: rest) = p :: armedRun p rest) ∧
    notifyRun [A, A, B] = [A, B] := by
  refine ⟨notifyRun_cons, ?_⟩
  rw [notifyRun_cons]
  simp [armedRun, Ne.symm hAB]

/-- Witness for C2 at the concrete payloads "x", "x", "y". -/
theorem C2_change_notifier_witness :
    notifyRun ["x", "x", "y"] = ["x", "y"] :=
  (C2_change_notifier "x" "y" (by decide)).2

/-- Claim C3: on a reachable, seek-capable player whose current position
is readable, absolute seek issues the relative `Seek` call with
offset = parsed target − current position. -/
theorem C3_absolute_seek_offset (bus : Bus) (pid s : String) (cur : Int)
    (h1 : (bus.players pid).proxyOk = true)
    (h2 : canSeekOf (bus.players pid) = true)
    (h3 : (bus.players pid).position = some (GVariant.vInt64 cur)) :
    (handle_set_position bus (some pid) s).2 =
      [BusCall.seek pid (atoll s - cur)] := by
  simp [handle_set_position, h1, h2, h3, getInt64]

/-- Witness for C3: current position 5,000,000 µs and target
8,000,000 µs give offset 3,000,000 µs. -/
theorem C3_absolute_seek_offset_witness :
    (handle_set_position seekBus (some vlcName) "8000000").2 =
      [BusCall.seek vlcName 3000000] := by
  have h := C3_absolute_seek_offset seekBus vlcName "8000000" 5000000
    rfl rfl rfl
  rw [h]; decide

/-- Claim C6: when the player's seek-capability property is false or
absent, both seek commands fail with exit code 1 and neither issues any
bus method call. -/
theorem C6_no_seek_capability (bus : Bus) (pid arg : String)
    (h : canSeekOf (bus.players pid) = false) :
    handle_set_position bus (some pid) arg = (1, []) ∧
    handle_set_position_percent bus (some pid) arg = (1, []) := by
  constructor
  · by_cases h1 : (bus.players pid).proxyOk <;>
      simp [handle_set_position, h1, h]
  · by_cases h1 : (bus.players pid).proxyOk <;>
      simp [handle_set_position_percent, h1, h]

/-- Witness for C6 on a reachable player whose `CanSeek` property is
absent. -/
theorem C6_no_seek_capability_witness :
    canSeekOf (noSeekBus.players vlcName) = false ∧
    handle_set_position noSeekBus (some vlcName) "8000000" = (1, []) ∧
    handle_set_position_percent noSeekBus (some vlcName) "8000000" =
      (1, []) := by
  have h := C6_no_seek_capability noSeekBus vlcName "8000000" rfl
  exact ⟨rfl, h.1, h.2⟩

/-- Claim C7: aggregating a player with no status, position or metadata
properties is total and yields the record with empty title and artist,
zero position and length, the raw status "" (which the spec's status
mapping sends to Unknown), and the icon equal to the identity's suffix
after the media-player namespace prefix. -/
theorem C7_aggregate_missing_all (name : String) (p : Player)
    (hs : p.playbackStatus = none) (hp : p.position = none)
    (hm : p.metadata = none) (hn : strHasPrefix mprisNS name = true) :
    aggregate p name =
      { player_id := name, status := "", position := 0, length := 0,
        title := "", artist := "", icon := name.drop mprisNS.length } ∧
    parseStatus (aggregate p name).status = Status.Unknown := by
  have h1 : aggregate p name =
      { player_id := name, status := "", position := 0, length := 0,
        title := "", artist := "", icon := name.drop mprisNS.length } := by
    unfold aggregate
    rw [hs, hp, hm]
    simp [hn]
  refine ⟨h1, ?_⟩
  rw [h1]
  show parseStatus "" = Status.Unknown
  decide

/-- Witness for C7 at a property-less player registered under P1's
name. -/
theorem C7_aggregate_missing_all_witness :
    aggregate defaultPlayer p1name =
      { player_id := p1name, status := "", position := 0, length := 0,
        title := "", artist := "",
        icon := p1name.drop mprisNS.length } ∧
    parseStatus (aggregate defaultPlayer p1name).status = Status.Unknown :=
  C7_aggregate_missing_all p1name defaultPlayer rfl rfl rfl (by decide)

/-- Claim C8: the directory yields the empty sequence (not an error)
when name-listing fails or when no qualifying name exists, and the get
command with an empty ranking exits 0 printing exactly the empty JSON
array. -/
theorem C8_empty_directory (bus : Bus) :
    (bus.listNames = none → find_players bus = []) ∧
    (∀ names, bus.listNames = some names →
        (∀ n ∈ names,
          isPlayingEntry bus n = false ∧ isPausedEntry bus n = false) →
        find_players bus = []) ∧
    (find_players bus = [] → handle_get bus = (0, "[]")) := by
  refine ⟨?_, ?_, ?_⟩
  · intro h
    unfold find_players
    rw [h]
  · intro names h hn
    rw [find_players_eq bus names h]
    have h1 : names.filter (isPlayingEntry bus) = [] := by
      rw [List.filter_eq_nil_iff]
      intro n hm
      simp [(hn n hm).1]
    have h2 : names.filter (isPausedEntry bus) = [] := by
      rw [List.filter_eq_nil_iff]
      intro n hm
      simp [(hn n hm).2]
    rw [h1, h2]
    rfl
  · intro h
    unfold handle_get get_players_json
    rw [h]
    rfl

/-- Witness for C8 on a bus whose name-listing call fails. -/
theorem C8_empty_directory_witness :
    find_players emptyBus = [] ∧ handle_get emptyBus = (0, "[]") := by
  have h := C8_empty_directory emptyBus
  exact ⟨h.1 rfl, h.2.2 (h.1 rfl)⟩

/-- Counterexample to claim C9: on a player whose `PlayPause` method
call fails, the play-pause command still exits with code 0, because the
source passes a NULL error argument and ignores the call's outcome — it
does not exit 1 "when the toggle operation fails" as claimed. -/
theorem C9_play_pause_counterexample :
    (ppFailBus.players vlcName).playPauseOk = false ∧
    mainPlayPause ppFailBus (some vlcName) =
      (0, [BusCall.playPause vlcName]) := by
  decide

/-- Claim C9 (amended): play-pause exits 0 iff a target resolves (an
explicit player, or the top-ranked one), and exits 1 iff no target
exists; the outcome of the underlying toggle call never influences the
exit code (it is not even recorded). -/
theorem C9_play_pause_exit (bus : Bus) (arg : Option String) :
    ((mainPlayPause bus arg).1 = 0 ↔
        ¬(arg = none ∧ find_players bus = [])) ∧
    ((mainPlayPause bus arg).1 = 1 ↔
        (arg = none ∧ find_players bus = [])) ∧
    (∀ pid, arg = some pid →
        mainPlayPause bus arg = (0, [BusCall.playPause pid])) := by
  rcases arg with _ | pid
  · cases hf : find_players bus with
    | nil => simp [mainPlayPause, hf, handle_play_pause]
    | cons a rest => simp [mainPlayPause, hf, handle_play_pause]
  · simp [mainPlayPause, handle_play_pause]

/-- Witness for the amended C9: exit 1 with no argument on an empty
directory; exit 0 with an explicit target. -/
theorem C9_play_pause_exit_witness :
    (mainPlayPause emptyBus none).1 = 1 ∧
    mainPlayPause seekBus (some vlcName) =
      (0, [BusCall.playPause vlcName]) := by
  constructor
  · exact (C9_play_pause_exit emptyBus none).2.1.mpr ⟨rfl, by decide⟩
  · exact (C9_play_pause_exit seekBus (some vlcName)).2.2 vlcName rfl

/-- Claim C10: a numeric argument string that does not parse as a
number (no digits, no `.`-digit start, no `inf`/`nan` literal) is
silently treated as zero by both seek commands: `atoll` and `atof`
yield 0, each handler behaves exactly as with argument "0"
(set-position seeks toward absolute position 0, set-position-percent
treats it as 0 %, which passes the range check), and on a reachable,
seek-capable player both commands succeed with exit code 0. -/
theorem C10_nonnumeric_is_zero (s : String) (h : numStart s = false) :
    atoll s = 0 ∧ atofD s = DVal.fin 0 ∧
    (∀ (bus : Bus) (pid : Option String),
        handle_set_position bus pid s = handle_set_position bus pid "0") ∧
    (∀ (bus : Bus) (pid : Option String),
        handle_set_position_percent bus pid s =
          handle_set_position_percent bus pid "0") ∧
    handle_set_position seekBus (some vlcName) s =
      (0, [BusCall.seek vlcName (-5000000)]) ∧
    handle_set_position_percent seekBus (some vlcName) s =
      (0, [BusCall.seek vlcName (-5000000)]) := by
  obtain ⟨hA, hF⟩ := parse_zero_of_numStart_false h
  have h0A : atoll "0" = 0 := by decide
  have h0F : atofD "0" = DVal.fin 0 := by decide
  have e1 : ∀ (bus : Bus) (pid : Option String),
      handle_set_position bus pid s = handle_set_position bus pid "0" := by
    intro bus pid
    cases pid with
    | none => rfl
    | some pid => simp only [handle_set_position, hA, h0A]
  have e2 : ∀ (bus : Bus) (pid : Option String),
      handle_set_position_percent bus pid s =
        handle_set_position_percent bus pid "0" := by
    intro bus pid
    cases pid with
    | none => rfl
    | some pid => simp only [handle_set_position_percent, hA, hF, h0A, h0F]
  refine ⟨hA, hF, e1, e2, ?_, ?_⟩
  · rw [e1 seekBus (some vlcName)]
    decide
  · rw [e2 seekBus (some vlcName)]
    decide

/-- Witness for C10 at the non-numeric argument "abc". -/
theorem C10_nonnumeric_is_zero_witness :
    numStart "abc" = false ∧ atoll "abc" = 0 ∧ atofD "abc" = DVal.fin 0 ∧
    handle_set_position seekBus (some vlcName) "abc" =
      (0, [BusCall.seek vlcName (-5000000)]) ∧
    handle_set_position_percent seekBus (some vlcName) "abc" =
      (0, [BusCall.seek vlcName (-5000000)]) := by
  have h := C10_nonnumeric_is_zero "abc" (by decide)
  exact ⟨by decide, h.1, h.2.1, h.2.2.2.2.1, h.2.2.2.2.2⟩
